import Mathlib

/-!
# OtakuOracle — verification of the recommendation pipeline

Shallow embedding of `src/recommender.py`.  External effects are modelled
explicitly:

* the spaCy keyword extractor and the four remote fetchers are fields of a
  `FetchEnv` record (their outputs are environment data, not code under
  verification);
* `random.shuffle` is a function parameter `sh`; theorems that need it assume
  `sh` permutes its input (which `random.shuffle` does for every seed);
* the on-disk JSON cache is a map from path to file contents, where a file's
  text is abstracted to "parses to this JSON value" or "unparsable"
  (`json.dump` writes text that `json.load` parses back to the same value);
* machine floats (the `score` field) are modelled as rationals; the only
  operations performed on scores are order comparisons and truthiness tests,
  which agree with the rational model on all catalog values.
-/

/-- A raw catalog record as consumed by the recommender: `title`, `url`,
optional `episodes`, optional `score` (0-10 scale). -/
structure AnimeRecord where
  title : String
  url : String
  episodes : Option Int
  score : Option Rat
  deriving DecidableEq, Repr

/-- A returned recommendation: the `{"title": ..., "url": ...}` pair built at
the end of `recommend_anime` / `get_default_recs`. -/
structure RecItem where
  title : String
  url : String
  deriving DecidableEq, Repr

/-- The genre directory `MAL_GENRES`: lowercase genre name to numeric id,
fetched once at startup.  Modelled as an association list; `dict` key
membership is `(dir.lookup g).isSome` and `MAL_GENRES[g]` is `dir.lookup g`
(first match, keys unique in a Python dict). -/
abbrev GenreDir := List (String × Nat)

/-- The external world seen by the recommender: the spaCy token extractor
`extract_keywords` and the four remote fetchers, keyed by the arguments the
source passes them (`genre_id`/`pages`, `query`/`pages`, `query`/`per_page`,
`pages`). -/
structure FetchEnv where
  extract_keywords : String → List String
  fetch_by_genre : Nat → Nat → List AnimeRecord
  fetch_search_mal : String → Nat → List AnimeRecord
  fetch_anilist : String → Nat → List AnimeRecord
  fetch_top_anime : Nat → List AnimeRecord

/-- Python `str.isdigit` restricted to the ASCII digits our model of strings
carries: non-empty and all characters are digits. -/
def pyIsDigit (t : String) : Bool := !t.data.isEmpty && t.data.all Char.isDigit

/-- `int(t)` for a digit string `t`: its decimal value. -/
def decimalValue (t : String) : Nat :=
  t.data.foldl (fun a c => a * 10 + (c.toNat - 48)) 0

/-- Truthiness of `query.strip()` negated: Python `not query.strip()` holds
iff every character of the query is whitespace (stripping leaves nothing). -/
def pyStripEmpty (q : String) : Bool := q.data.all Char.isWhitespace

/-- The `"under N"` scan of `parse_user_request` (recommender.py lines 40-43):
`tokens.index("under")` finds the first occurrence of `"under"`; if a next
token exists and `isdigit`, the ceiling is its integer value. -/
def underCeiling : List String → Option Nat
  | [] => none
  | t :: rest =>
    if t = "under" then
      match rest with
      | [] => none
      | t2 :: _ => if pyIsDigit t2 then some (decimalValue t2) else none
    else underCeiling rest

/-- The parsed intent returned by `parse_user_request`. -/
structure ParsedIntent where
  genres : List String
  max_episodes : Option Nat
  rating_pref : Option String
  deriving DecidableEq, Repr

/-- `parse_user_request` (recommender.py lines 34-46), applied to the token
list produced by `extract_keywords`:
genres are the tokens that are keys of `MAL_GENRES`; `max_episodes` comes from
the `"under N"` scan; `rating_pref` is `"hidden gem"` iff both `"hidden"` and
`"gem"` occur among the tokens. -/
def parse_user_request (dir : GenreDir) (tokens : List String) : ParsedIntent :=
  { genres := tokens.filter (fun t => (dir.lookup t).isSome)
  , max_episodes := underCeiling tokens
  , rating_pref :=
      if tokens.contains "hidden" && tokens.contains "gem" then some "hidden gem"
      else none }

/-- One first-occurrence-wins deduplication loop over a `seen` set of keys
(recommender.py lines 148-159 contain two such loops, keyed by exact url and
by normalized base title respectively). -/
def dedupByAux {α : Type} (key : α → String) (seen : List String) :
    List α → List α
  | [] => []
  | a :: rest =>
    if key a ∈ seen then dedupByAux key seen rest
    else a :: dedupByAux key (key a :: seen) rest

/-- Deduplication starting from an empty `seen` set. -/
def dedupBy {α : Type} (key : α → String) (l : List α) : List α :=
  dedupByAux key [] l

/-- The normalized base title: `title.split(":")[0].split("-")[0].strip()`
followed by `.lower()` (the form stored in and tested against `base_seen`). -/
def normBase (t : String) : String :=
  ((((t.splitOn ":").headD t).splitOn "-").headD t).trim.toLower

/-- Sort key of the final ranking: `a.get("score") or 0` (missing score, and
the falsy score `0`, both rank as `0`). -/
def scoreKey (a : AnimeRecord) : Rat := a.score.getD 0

/-- The comparison under which Python's stable
`sorted(key=score-or-0, reverse=True)` sorts: `a` may stay before `b`
iff `scoreKey b ≤ scoreKey a`. -/
def descLe (a b : AnimeRecord) : Bool := decide (scoreKey b ≤ scoreKey a)

/-- `sorted(candidates, key=lambda a: a.get("score") or 0, reverse=True)[:10]`:
stable descending sort by score-or-0, then first ten. -/
def pickTop10 (l : List AnimeRecord) : List AnimeRecord :=
  (l.mergeSort descLe).take 10

/-- The episode-filter predicate `a.get("episodes") and a["episodes"] <= N`:
Python truthiness keeps a record iff `episodes` is present, nonzero, and
at most `N`. -/
def epKeep (n : Nat) (a : AnimeRecord) : Bool :=
  match a.episodes with
  | some e => decide (e ≠ 0) && decide (e ≤ (n : Int))
  | none => false

/-- The episode filter (recommender.py lines 162-163), applied only when a
ceiling was parsed. -/
def epFilter : Option Nat → List AnimeRecord → List AnimeRecord
  | none, l => l
  | some n, l => l.filter (epKeep n)

/-- The hidden-gem predicate `a.get("score") and a["score"] < 7`: Python
truthiness keeps a record iff `score` is present, nonzero, and below 7. -/
def gemKeep (a : AnimeRecord) : Bool :=
  match a.score with
  | some s => decide (s ≠ 0) && decide (s < 7)
  | none => false

/-- The hidden-gem filter (recommender.py lines 165-166), applied only when
`rating_pref == "hidden gem"`. -/
def gemFilter (pref : Option String) (l : List AnimeRecord) : List AnimeRecord :=
  if pref = some "hidden gem" then l.filter gemKeep else l

/-- The dedup-then-filter stage of `recommend_anime` (lines 148-166):
dedup by exact url, dedup by normalized base title, episode filter,
hidden-gem filter, in source order. -/
def filterStage (parsed : ParsedIntent) (l : List AnimeRecord) : List AnimeRecord :=
  gemFilter parsed.rating_pref
    (epFilter parsed.max_episodes
      (dedupBy (fun a => normBase a.title) (dedupBy (fun a => a.url) l)))

/-- The genre loop of `recommend_anime` (lines 139-141):
`for g in parsed["genres"]: candidates += fetch_by_genre(MAL_GENRES[g], 2)`.
`MAL_GENRES[g]` is a dict access; a missing key is the `none` branch
(Python `KeyError`). -/
def gatherGenres (env : FetchEnv) (dir : GenreDir) :
    List AnimeRecord → List String → Option (List AnimeRecord)
  | acc, [] => some acc
  | acc, g :: gs =>
    match dir.lookup g with
    | some gid => gatherGenres env dir (acc ++ env.fetch_by_genre gid 2) gs
    | none => none

/-- Lines 137-143: the genre branch (`if parsed["genres"]`), else the
free-text search branch (`elif query.strip()`), else the empty list the
candidates were initialized to. -/
def step1Candidates (env : FetchEnv) (dir : GenreDir) (query : String)
    (parsed : ParsedIntent) : Option (List AnimeRecord) :=
  if parsed.genres.isEmpty then
    if pyStripEmpty query then some [] else some (env.fetch_search_mal query 1)
  else gatherGenres env dir [] parsed.genres

/-- Lines 144-147: AniList fallback if no candidates yet and `query.strip()`
truthy, then the top listing if still no candidates. -/
def fallback23 (env : FetchEnv) (query : String) (c0 : List AnimeRecord) :
    List AnimeRecord :=
  let c1 := if c0.isEmpty && !pyStripEmpty query then env.fetch_anilist query 10 else c0
  if c1.isEmpty then env.fetch_top_anime 2 else c1

/-- Candidate selection of `recommend_anime` (lines 137-147): genre fetches if
genres were parsed, else free-text search if `query.strip()` is truthy; then
the AniList fallback if still empty and `query.strip()` truthy; then the top
listing if still empty. -/
def pipelineCandidates (env : FetchEnv) (dir : GenreDir) (query : String) :
    Option (List AnimeRecord) :=
  (step1Candidates env dir query (parse_user_request dir (env.extract_keywords query))).map
    (fallback23 env query)

/-- The projection to the returned pair (line 170). -/
def toItem (a : AnimeRecord) : RecItem := ⟨a.title, a.url⟩

/-- Lines 148-169 as one function of the selected candidates: dedup, filter,
shuffle (`sh`), stable sort descending by score-or-0, truncate to ten. -/
def processCandidates (parsed : ParsedIntent)
    (sh : List AnimeRecord → List AnimeRecord) (l : List AnimeRecord) :
    List AnimeRecord :=
  pickTop10 (sh (filterStage parsed l))

/-- `recommend_anime` (lines 135-170).  `none` models the uncaught `KeyError`
of `MAL_GENRES[g]`. -/
def recommend_anime (env : FetchEnv) (dir : GenreDir)
    (sh : List AnimeRecord → List AnimeRecord) (query : String) :
    Option (List RecItem) :=
  (pipelineCandidates env dir query).map
    (fun c =>
      (processCandidates (parse_user_request dir (env.extract_keywords query)) sh c).map toItem)

/-- `get_default_recs` (lines 173-177): top listing, shuffle, stable sort
descending by score-or-0, first ten, project. -/
def get_default_recs (env : FetchEnv)
    (sh : List AnimeRecord → List AnimeRecord) : List RecItem :=
  (pickTop10 (sh (env.fetch_top_anime 2))).map toItem

/-! ## Cache model -/

/-- JSON values, the common value space of `json.dump` / `json.load`. -/
inductive JsonVal where
  | null
  | bool (b : Bool)
  | num (q : Rat)
  | str (s : String)
  | arr (elems : List JsonVal)
  | obj (fields : List (String × JsonVal))

/-- Contents of one file on disk, abstracted to the JSON text layer: the text
either parses to a unique JSON value or is unparsable. -/
inductive FileText where
  | parsable (j : JsonVal)
  | unparsable

/-- The file system: path to contents; `none` is an absent file
(`os.path.exists` false). -/
abbrev FileSys := String → Option FileText

/-- `json.load` on an open file: the parsed value, or a raised
`JSONDecodeError` (the `Except.error` branch) on unparsable text. -/
def json_load : FileText → Except Unit JsonVal
  | FileText.parsable j => Except.ok j
  | FileText.unparsable => Except.error ()

/-- `_load_cache` (recommender.py lines 51-54): if the path exists, return
`json.load` of the file (which raises on unparsable text); else return the
empty mapping `{}`. -/
def _load_cache (fs : FileSys) (path : String) : Except Unit JsonVal :=
  match fs path with
  | some ft => json_load ft
  | none => Except.ok (JsonVal.obj [])

/-- `_save_cache` (recommender.py lines 56-58): ensure the directory exists
(no-op in the path-to-contents model) and overwrite the file at `path` with
the serialization of `cache`, which `json.load` parses back to
`JsonVal.obj cache`. -/
def _save_cache (fs : FileSys) (path : String)
    (cache : List (String × JsonVal)) : FileSys :=
  fun q => if q = path then some (FileText.parsable (JsonVal.obj cache)) else fs q

/-! ## Spec-side candidate chain (for the fallback-order claim) -/

/-- `MAL_GENRES[g]` for every parsed genre, failing if any key is absent. -/
def lookupGenreIds (dir : GenreDir) : List String → Option (List Nat)
  | [] => some []
  | g :: gs =>
    match dir.lookup g, lookupGenreIds dir gs with
    | some gid, some rest => some (gid :: rest)
    | _, _ => none

/-- The primary source, as the claim words it: if the parsed genres are
non-empty, fetch by genre for each matched genre (2 pages each) and
concatenate; else if the query is non-empty (`qne`), fetch by free-text
search (1 page). -/
def chainStep1 (env : FetchEnv) (dir : GenreDir) (query : String)
    (parsed : ParsedIntent) (qne : Bool) : Option (List AnimeRecord) :=
  if parsed.genres ≠ [] then
    (lookupGenreIds dir parsed.genres).map
      (fun gids => (gids.map (fun gid => env.fetch_by_genre gid 2)).flatten)
  else if qne then some (env.fetch_search_mal query 1) else some []

/-- The fallbacks, as the claim words them: if candidates are still empty and
the query is non-empty (`qne`), fetch from the secondary catalog (10 results);
if candidates are still empty, fetch the top listing (2 pages). -/
def chainFallback (env : FetchEnv) (query : String) (qne : Bool)
    (c0 : List AnimeRecord) : List AnimeRecord :=
  let c1 := if c0 = [] ∧ qne then env.fetch_anilist query 10 else c0
  if c1 = [] then env.fetch_top_anime 2 else c1

/-- The candidate chain as the claim words it, parameterized by the meaning
of "the query is non-empty" (`qne`). -/
def chainCandidates (env : FetchEnv) (dir : GenreDir) (query : String)
    (parsed : ParsedIntent) (qne : Bool) : Option (List AnimeRecord) :=
  (chainStep1 env dir query parsed qne).map (chainFallback env query qne)

/-- The fallback chain with "the query is non-empty" read literally as
`query ≠ ""` — the claim as stated. -/
def specCandidatesLiteral (env : FetchEnv) (dir : GenreDir) (query : String) :
    Option (List AnimeRecord) :=
  chainCandidates env dir query
    (parse_user_request dir (env.extract_keywords query)) (decide (query ≠ ""))

/-- The fallback chain with "the query is non-empty" read as non-blank,
`query.strip()` truthy — what the source tests. -/
def specCandidatesTrim (env : FetchEnv) (dir : GenreDir) (query : String) :
    Option (List AnimeRecord) :=
  chainCandidates env dir query
    (parse_user_request dir (env.extract_keywords query)) (!pyStripEmpty query)

/-! ## Auxiliary predicates and concrete environments -/

/-- Every record any fetcher of `env` can ever return satisfies `P`. -/
def EnvAll (env : FetchEnv) (P : AnimeRecord → Prop) : Prop :=
  (∀ gid p, ∀ a ∈ env.fetch_by_genre gid p, P a) ∧
  (∀ q p, ∀ a ∈ env.fetch_search_mal q p, P a) ∧
  (∀ q n, ∀ a ∈ env.fetch_anilist q n, P a) ∧
  (∀ p, ∀ a ∈ env.fetch_top_anime p, P a)

/-- Every record any fetcher can return has a non-empty title and url. -/
def envRecordsOk (env : FetchEnv) : Prop :=
  EnvAll env (fun a => a.title ≠ "" ∧ a.url ≠ "")

/-- An environment in which every fetcher returns nothing. -/
def trivialEnv : FetchEnv :=
  { extract_keywords := fun _ => []
  , fetch_by_genre := fun _ _ => []
  , fetch_search_mal := fun _ _ => []
  , fetch_anilist := fun _ _ => []
  , fetch_top_anime := fun _ => [] }

/-- An environment whose top listing contains one record with empty title and
empty url (remote catalogs are not constrained to return non-empty fields). -/
def cexEnvC1 : FetchEnv :=
  { trivialEnv with fetch_top_anime := fun _ => [⟨"", "", none, none⟩] }

/-- An environment whose top listing holds one well-formed record. -/
def witEnvC1 : FetchEnv :=
  { trivialEnv with fetch_top_anime := fun _ => [⟨"t", "u", none, none⟩] }

/-- An environment distinguishing the free-text-search branch from the
top-listing branch. -/
def cexEnvC3 : FetchEnv :=
  { trivialEnv with
      fetch_search_mal := fun _ _ => [⟨"S", "us", none, none⟩]
    , fetch_top_anime := fun _ => [⟨"T", "ut", none, none⟩] }

/-- An environment for exercising the episode filter: the extractor yields
the tokens of `"under 5"` and the search returns one 3-episode record. -/
def witEnvC4 : FetchEnv :=
  { trivialEnv with
      extract_keywords := fun _ => ["under", "5"]
    , fetch_search_mal := fun _ _ => [⟨"A", "u1", some 3, none⟩] }

/-- An environment for exercising the hidden-gem filter: the extractor yields
`["hidden", "gem"]` and the search returns one record with score 5. -/
def witEnvC5 : FetchEnv :=
  { trivialEnv with
      extract_keywords := fun _ => ["hidden", "gem"]
    , fetch_search_mal := fun _ _ => [⟨"A", "u1", some 3, some 5⟩] }

/-- A file system holding exactly one unparsable file. -/
def badFS : FileSys :=
  fun p => if p = "data/genre_cache.json" then some FileText.unparsable else none

/-! ## Deduplication lemmas -/

theorem dedupByAux_sublist {α : Type} (key : α → String) :
    ∀ (l : List α) (seen : List String), List.Sublist (dedupByAux key seen l) l := by
  intro l
  induction l with
  | nil => intro seen; simp [dedupByAux]
  | cons b rest ih =>
    intro seen
    simp only [dedupByAux]
    by_cases hb : key b ∈ seen
    · rw [if_pos hb]
      exact (ih seen).cons b
    · rw [if_neg hb]
      exact (ih (key b :: seen)).cons₂ b

theorem dedupByAux_key_not_mem {α : Type} (key : α → String) :
    ∀ (l : List α) (seen : List String) (a : α),
      a ∈ dedupByAux key seen l → key a ∉ seen := by
  intro l
  induction l with
  | nil => intro seen a h; simp [dedupByAux] at h
  | cons b rest ih =>
    intro seen a h
    simp only [dedupByAux] at h
    by_cases hb : key b ∈ seen
    · rw [if_pos hb] at h
      exact ih seen a h
    · rw [if_neg hb] at h
      rcases List.mem_cons.mp h with rfl | h2
      · exact hb
      · have := ih (key b :: seen) a h2
        intro hs
        exact this (List.mem_cons_of_mem _ hs)

theorem dedupByAux_keys_nodup {α : Type} (key : α → String) :
    ∀ (l : List α) (seen : List String),
      ((dedupByAux key seen l).map key).Nodup := by
  intro l
  induction l with
  | nil => intro seen; simp [dedupByAux]
  | cons b rest ih =>
    intro seen
    simp only [dedupByAux]
    by_cases hb : key b ∈ seen
    · rw [if_pos hb]; exact ih seen
    · rw [if_neg hb]
      simp only [List.map_cons, List.nodup_cons]
      constructor
      · intro hmem
        rcases List.mem_map.mp hmem with ⟨a, ha, hka⟩
        have := dedupByAux_key_not_mem key rest (key b :: seen) a ha
        exact this (by rw [hka]; exact List.mem_cons_self _ _)
      · exact ih (key b :: seen)

theorem dedupByAux_first_wins {α : Type} (key : α → String) :
    ∀ (l : List α) (seen : List String) (a : α),
      a ∈ dedupByAux key seen l →
      l.find? (fun b => key b == key a) = some a := by
  intro l
  induction l with
  | nil => intro seen a h; simp [dedupByAux] at h
  | cons b rest ih =>
    intro seen a h
    simp only [dedupByAux] at h
    by_cases hb : key b ∈ seen
    · rw [if_pos hb] at h
      have hka : key a ∉ seen := dedupByAux_key_not_mem key rest seen a h
      have hne : (key b == key a) = false := by
        rw [beq_eq_false_iff_ne]
        intro he
        exact hka (he ▸ hb)
      simp only [List.find?, hne]
      exact ih seen a h
    · rw [if_neg hb] at h
      rcases List.mem_cons.mp h with rfl | h2
      · simp [List.find?]
      · have hka := dedupByAux_key_not_mem key rest (key b :: seen) a h2
        have hne : (key b == key a) = false := by
          rw [beq_eq_false_iff_ne]
          intro he
          exact hka (he ▸ List.mem_cons_self _ _)
        simp only [List.find?, hne]
        exact ih (key b :: seen) a h2

theorem dedupBy_sublist {α : Type} (key : α → String) (l : List α) :
    List.Sublist (dedupBy key l) l :=
  dedupByAux_sublist key l []

theorem dedupBy_keys_nodup {α : Type} (key : α → String) (l : List α) :
    ((dedupBy key l).map key).Nodup :=
  dedupByAux_keys_nodup key l []

theorem dedupBy_first_wins {α : Type} (key : α → String) (l : List α) (a : α)
    (h : a ∈ dedupBy key l) :
    l.find? (fun b => key b == key a) = some a :=
  dedupByAux_first_wins key l [] a h

/-! ## Stage lemmas: sublists, membership, key-distinctness, sortedness -/

theorem epFilter_sublist (m : Option Nat) (l : List AnimeRecord) :
    List.Sublist (epFilter m l) l := by
  cases m with
  | none => exact List.Sublist.refl l
  | some n => exact List.filter_sublist l

theorem gemFilter_sublist (pref : Option String) (l : List AnimeRecord) :
    List.Sublist (gemFilter pref l) l := by
  unfold gemFilter
  split
  · exact List.filter_sublist l
  · exact List.Sublist.refl l

theorem filterStage_sublist_dedups (parsed : ParsedIntent) (l : List AnimeRecord) :
    List.Sublist (filterStage parsed l)
      (dedupBy (fun a => normBase a.title) (dedupBy (fun a => a.url) l)) :=
  (gemFilter_sublist _ _).trans (epFilter_sublist _ _)

theorem filterStage_sublist (parsed : ParsedIntent) (l : List AnimeRecord) :
    List.Sublist (filterStage parsed l) l :=
  (filterStage_sublist_dedups parsed l).trans
    ((dedupBy_sublist _ _).trans (dedupBy_sublist _ _))

theorem mem_pickTop10 (l : List AnimeRecord) (a : AnimeRecord)
    (h : a ∈ pickTop10 l) : a ∈ l := by
  have h1 : a ∈ l.mergeSort descLe := (List.take_sublist 10 _).subset h
  exact List.mem_mergeSort.mp h1

theorem pickTop10_length_le (l : List AnimeRecord) : (pickTop10 l).length ≤ 10 := by
  unfold pickTop10
  simp [List.length_take]

theorem pickTop10_sorted (l : List AnimeRecord) :
    (pickTop10 l).Pairwise (fun a b => scoreKey b ≤ scoreKey a) := by
  have htrans : ∀ a b c : AnimeRecord, descLe a b → descLe b c → descLe a c := by
    intro a b c hab hbc
    simp only [descLe, decide_eq_true_eq] at hab hbc ⊢
    exact le_trans hbc hab
  have htotal : ∀ a b : AnimeRecord, descLe a b || descLe b a := by
    intro a b
    simp only [descLe]
    rcases le_total (scoreKey b) (scoreKey a) with h | h
    · simp [h]
    · simp [h]
  have hs := List.sorted_mergeSort htrans htotal l
  have hs2 : (l.mergeSort descLe).Pairwise (fun a b => scoreKey b ≤ scoreKey a) := by
    refine hs.imp ?_
    intro a b hab
    simpa [descLe] using hab
  exact hs2.sublist (List.take_sublist 10 _)

theorem pickTop10_map_key_nodup (key : AnimeRecord → String) (l : List AnimeRecord)
    (h : (l.map key).Nodup) : ((pickTop10 l).map key).Nodup := by
  have hperm : List.Perm (l.mergeSort descLe) l := List.mergeSort_perm l descLe
  have h2 : ((l.mergeSort descLe).map key).Nodup := ((hperm.map key).nodup_iff).mpr h
  exact List.Nodup.sublist ((List.take_sublist 10 _).map key) h2

theorem processCandidates_mem_filterStage (parsed : ParsedIntent)
    (sh : List AnimeRecord → List AnimeRecord) (l : List AnimeRecord)
    (hsh : ∀ l', List.Perm (sh l') l')
    (a : AnimeRecord) (h : a ∈ processCandidates parsed sh l) :
    a ∈ filterStage parsed l := by
  have h1 : a ∈ sh (filterStage parsed l) := mem_pickTop10 _ a h
  exact (hsh (filterStage parsed l)).mem_iff.mp h1

theorem processCandidates_subset (parsed : ParsedIntent)
    (sh : List AnimeRecord → List AnimeRecord) (l : List AnimeRecord)
    (hsh : ∀ l', List.Perm (sh l') l')
    (a : AnimeRecord) (h : a ∈ processCandidates parsed sh l) : a ∈ l :=
  (filterStage_sublist parsed l).subset
    (processCandidates_mem_filterStage parsed sh l hsh a h)

theorem filterStage_url_nodup (parsed : ParsedIntent) (l : List AnimeRecord) :
    ((filterStage parsed l).map (fun a => a.url)).Nodup := by
  have h1 : ((dedupBy (fun a => a.url) l).map (fun a => a.url)).Nodup :=
    dedupBy_keys_nodup _ l
  have h2 : ((dedupBy (fun a => normBase a.title) (dedupBy (fun a => a.url) l)).map
      (fun a => a.url)).Nodup :=
    List.Nodup.sublist ((dedupBy_sublist _ _).map _) h1
  exact List.Nodup.sublist ((filterStage_sublist_dedups parsed l).map _) h2

theorem filterStage_base_nodup (parsed : ParsedIntent) (l : List AnimeRecord) :
    ((filterStage parsed l).map (fun a => normBase a.title)).Nodup := by
  have h1 : ((dedupBy (fun a => normBase a.title) (dedupBy (fun a => a.url) l)).map
      (fun a => normBase a.title)).Nodup :=
    dedupBy_keys_nodup _ _
  exact List.Nodup.sublist ((filterStage_sublist_dedups parsed l).map _) h1

theorem processCandidates_key_nodup (key : AnimeRecord → String)
    (parsed : ParsedIntent) (sh : List AnimeRecord → List AnimeRecord)
    (l : List AnimeRecord) (hsh : ∀ l', List.Perm (sh l') l')
    (h : ((filterStage parsed l).map key).Nodup) :
    ((processCandidates parsed sh l).map key).Nodup := by
  have h2 : ((sh (filterStage parsed l)).map key).Nodup :=
    (((hsh (filterStage parsed l)).map key).nodup_iff).mpr h
  exact pickTop10_map_key_nodup key _ h2

theorem pickTop10_nil : pickTop10 [] = [] := by
  simp [pickTop10]

theorem pickTop10_singleton (a : AnimeRecord) : pickTop10 [a] = [a] := by
  simp [pickTop10]

/-! ## Totality of the genre lookups -/

theorem gatherGenres_isSome (env : FetchEnv) (dir : GenreDir) :
    ∀ (gs : List String), (∀ g ∈ gs, (dir.lookup g).isSome) →
      ∀ acc, (gatherGenres env dir acc gs).isSome := by
  intro gs
  induction gs with
  | nil => intro _ acc; simp [gatherGenres]
  | cons g gs ih =>
    intro h acc
    have hg := h g (List.mem_cons_self g gs)
    simp only [gatherGenres]
    cases hgl : dir.lookup g with
    | some gid => exact ih (fun x hx => h x (List.mem_cons_of_mem _ hx)) _
    | none => rw [hgl] at hg; simp at hg

theorem step1Candidates_isSome (env : FetchEnv) (dir : GenreDir) (query : String) :
    (step1Candidates env dir query
      (parse_user_request dir (env.extract_keywords query))).isSome := by
  unfold step1Candidates
  by_cases hg : (parse_user_request dir (env.extract_keywords query)).genres.isEmpty
  · rw [if_pos hg]
    split <;> simp
  · rw [if_neg hg]
    apply gatherGenres_isSome
    intro g hgm
    simp only [parse_user_request] at hgm
    exact (List.mem_filter.mp hgm).2

theorem pipelineCandidates_isSome (env : FetchEnv) (dir : GenreDir) (query : String) :
    (pipelineCandidates env dir query).isSome := by
  unfold pipelineCandidates
  have h := step1Candidates_isSome env dir query
  cases hs : step1Candidates env dir query
      (parse_user_request dir (env.extract_keywords query)) with
  | some c => simp [hs]
  | none => rw [hs] at h; simp at h

/-- C10: for every query, the genres list produced by `parse_user_request`
contains only keys of the genre directory, so the `MAL_GENRES[g]` lookup
performed by `recommend_anime` for each parsed genre never fails: the
missing-key error branch is unreachable and `recommend_anime` always
produces a result. -/
theorem c10_genre_lookups_never_fail :
    (∀ (dir : GenreDir) (tokens : List String),
      ∀ g ∈ (parse_user_request dir tokens).genres, (dir.lookup g).isSome) ∧
    (∀ (env : FetchEnv) (dir : GenreDir)
        (sh : List AnimeRecord → List AnimeRecord) (query : String),
      (recommend_anime env dir sh query).isSome) := by
  constructor
  · intro dir tokens g hg
    simp only [parse_user_request] at hg
    exact (List.mem_filter.mp hg).2
  · intro env dir sh query
    unfold recommend_anime
    have h := pipelineCandidates_isSome env dir query
    cases hp : pipelineCandidates env dir query with
    | some c => simp [hp]
    | none => rw [hp] at h; simp at h

/-- Witness for C10 at a concrete directory and token list. -/
theorem c10_witness :
    (([("action", 1)] : GenreDir).lookup "action").isSome :=
  c10_genre_lookups_never_fail.1 [("action", 1)] ["action"] "action" (by decide)

/-- C9: saving a cache mapping and then loading from the same path returns
a mapping equal to the one saved. -/
theorem c9_cache_roundtrip :
    ∀ (fs : FileSys) (path : String) (cache : List (String × JsonVal)),
      _load_cache (_save_cache fs path cache) path =
        Except.ok (JsonVal.obj cache) := by
  intro fs path cache
  simp [_load_cache, _save_cache, json_load]

/-- Counterexample for C8: on an existing but unparsable cache file,
`_load_cache` raises (`json.load` error) instead of returning the empty
mapping, refuting the claim as stated. -/
theorem c8_counterexample :
    ¬ (∀ (fs : FileSys) (path : String),
        (fs path = none ∨ fs path = some FileText.unparsable) →
        _load_cache fs path = Except.ok (JsonVal.obj [])) := by
  intro h
  have hbad := h badFS "data/genre_cache.json" (Or.inr (by simp [badFS]))
  simp [_load_cache, badFS, json_load] at hbad

/-- C8 (amended): `_load_cache` returns the empty mapping when the file is
absent; when the file exists but its contents are unparsable it propagates
the parse error instead of returning the empty mapping. -/
theorem c8_amended_load_behavior :
    ∀ (fs : FileSys) (path : String),
      (fs path = none → _load_cache fs path = Except.ok (JsonVal.obj [])) ∧
      (fs path = some FileText.unparsable →
        _load_cache fs path = Except.error ()) := by
  intro fs path
  constructor
  · intro h
    simp [_load_cache, h]
  · intro h
    simp [_load_cache, h, json_load]

/-- Witness for C8 (amended) on a concrete absent file and a concrete
unparsable file. -/
theorem c8_witness :
    _load_cache (fun _ => none) "data/genre_cache.json" =
      Except.ok (JsonVal.obj []) ∧
    _load_cache badFS "data/genre_cache.json" = Except.error () :=
  ⟨(c8_amended_load_behavior (fun _ => none) "data/genre_cache.json").1 rfl,
   (c8_amended_load_behavior badFS "data/genre_cache.json").2 (by simp [badFS])⟩

/-- C2: no two returned items share a url and no two share a normalized base
title; each deduplication pass is order-preserving (its output is a sublist
of its input), produces pairwise-distinct keys, and keeps exactly the first
occurrence of each key (every survivor is the first input element bearing
its key). -/
theorem c2_dedup_first_wins_and_distinct :
    (∀ (l : List AnimeRecord),
      (List.Sublist (dedupBy (fun a => a.url) l) l ∧
        ((dedupBy (fun a => a.url) l).map (fun a => a.url)).Nodup ∧
        ∀ a ∈ dedupBy (fun a => a.url) l,
          l.find? (fun b => b.url == a.url) = some a) ∧
      (List.Sublist (dedupBy (fun a => normBase a.title) l) l ∧
        ((dedupBy (fun a => normBase a.title) l).map
          (fun a => normBase a.title)).Nodup ∧
        ∀ a ∈ dedupBy (fun a => normBase a.title) l,
          l.find? (fun b => normBase b.title == normBase a.title) = some a)) ∧
    (∀ (env : FetchEnv) (dir : GenreDir)
        (sh : List AnimeRecord → List AnimeRecord) (query : String)
        (out : List RecItem),
      (∀ l, List.Perm (sh l) l) →
      recommend_anime env dir sh query = some out →
      (out.map (fun it => it.url)).Nodup ∧
      (out.map (fun it => normBase it.title)).Nodup) := by
  constructor
  · intro l
    refine ⟨⟨dedupBy_sublist _ l, dedupBy_keys_nodup _ l, ?_⟩,
            ⟨dedupBy_sublist _ l, dedupBy_keys_nodup _ l, ?_⟩⟩
    · intro a h
      exact dedupBy_first_wins (fun a => a.url) l a h
    · intro a h
      exact dedupBy_first_wins (fun a => normBase a.title) l a h
  · intro env dir sh query out hsh hrec
    unfold recommend_anime at hrec
    rcases Option.map_eq_some'.mp hrec with ⟨c, hc, hout⟩
    rw [← hout, List.map_map, List.map_map]
    have hu : ((fun it : RecItem => it.url) ∘ toItem) = fun a : AnimeRecord => a.url := rfl
    have hb : ((fun it : RecItem => normBase it.title) ∘ toItem) =
        fun a : AnimeRecord => normBase a.title := rfl
    rw [hu, hb]
    exact ⟨processCandidates_key_nodup _ _ sh c hsh (filterStage_url_nodup _ c),
           processCandidates_key_nodup _ _ sh c hsh (filterStage_base_nodup _ c)⟩

/-- Witness for C2 on the empty environment. -/
theorem c2_witness :
    (([] : List RecItem).map (fun it => it.url)).Nodup ∧
    (([] : List RecItem).map (fun it => normBase it.title)).Nodup :=
  c2_dedup_first_wins_and_distinct.2 trivialEnv [] id "" []
    (fun l => List.Perm.refl l)
    (by simp [recommend_anime, pipelineCandidates, step1Candidates,
              parse_user_request, underCeiling, fallback23, processCandidates,
              filterStage, dedupBy, dedupByAux, epFilter, gemFilter,
              pickTop10, trivialEnv])

/-! ## Provenance of candidates: every candidate comes from a fetcher -/

theorem gatherGenres_all (env : FetchEnv) (dir : GenreDir)
    (P : AnimeRecord → Prop)
    (hP : ∀ gid p, ∀ a ∈ env.fetch_by_genre gid p, P a) :
    ∀ (gs : List String) (acc : List AnimeRecord), (∀ a ∈ acc, P a) →
      ∀ c, gatherGenres env dir acc gs = some c → ∀ a ∈ c, P a := by
  intro gs
  induction gs with
  | nil =>
    intro acc hacc c hc a ha
    simp only [gatherGenres, Option.some.injEq] at hc
    exact hacc a (hc ▸ ha)
  | cons g gs ih =>
    intro acc hacc c hc a ha
    simp only [gatherGenres] at hc
    cases hgl : dir.lookup g with
    | none => rw [hgl] at hc; simp at hc
    | some gid =>
      rw [hgl] at hc
      refine ih (acc ++ env.fetch_by_genre gid 2) ?_ c hc a ha
      intro x hx
      rcases List.mem_append.mp hx with h1 | h2
      · exact hacc x h1
      · exact hP gid 2 x h2

theorem step1Candidates_all (env : FetchEnv) (dir : GenreDir) (query : String)
    (parsed : ParsedIntent) (P : AnimeRecord → Prop)
    (hgenre : ∀ gid p, ∀ a ∈ env.fetch_by_genre gid p, P a)
    (hsearch : ∀ q p, ∀ a ∈ env.fetch_search_mal q p, P a) :
    ∀ c, step1Candidates env dir query parsed = some c → ∀ a ∈ c, P a := by
  intro c hc a ha
  unfold step1Candidates at hc
  by_cases hg : parsed.genres.isEmpty
  · rw [if_pos hg] at hc
    by_cases ht : pyStripEmpty query
    · rw [if_pos ht] at hc
      have hce := Option.some.inj hc
      rw [← hce] at ha
      simp at ha
    · rw [if_neg ht] at hc
      have hce := Option.some.inj hc
      rw [← hce] at ha
      exact hsearch query 1 a ha
  · rw [if_neg hg] at hc
    exact gatherGenres_all env dir P hgenre parsed.genres [] (by simp) c hc a ha

theorem fallback23_all (env : FetchEnv) (query : String) (P : AnimeRecord → Prop)
    (hani : ∀ q n, ∀ a ∈ env.fetch_anilist q n, P a)
    (htop : ∀ p, ∀ a ∈ env.fetch_top_anime p, P a)
    (c0 : List AnimeRecord) (h0 : ∀ a ∈ c0, P a) :
    ∀ a ∈ fallback23 env query c0, P a := by
  intro a ha
  simp only [fallback23] at ha
  by_cases h1 : (c0.isEmpty && !pyStripEmpty query) = true
  · rw [if_pos h1] at ha
    by_cases h2 : (env.fetch_anilist query 10).isEmpty
    · rw [if_pos h2] at ha
      exact htop 2 a ha
    · rw [if_neg h2] at ha
      exact hani query 10 a ha
  · rw [if_neg h1] at ha
    by_cases h2 : c0.isEmpty
    · rw [if_pos h2] at ha
      exact htop 2 a ha
    · rw [if_neg h2] at ha
      exact h0 a ha

theorem pipelineCandidates_all (env : FetchEnv) (dir : GenreDir) (query : String)
    (P : AnimeRecord → Prop) (hP : EnvAll env P) :
    ∀ c, pipelineCandidates env dir query = some c → ∀ a ∈ c, P a := by
  intro c hc a ha
  unfold pipelineCandidates at hc
  rcases Option.map_eq_some'.mp hc with ⟨c0, hc0, hfb⟩
  rw [← hfb] at ha
  exact fallback23_all env query P hP.2.2.1 hP.2.2.2 c0
    (step1Candidates_all env dir query _ P hP.1 hP.2.1 c0 hc0) a ha

/-- Counterexample for C1: nothing in `recommend_anime` validates titles or
urls, so when the top-listing fetch returns a record with empty title and
empty url (remote catalogs are not constrained otherwise), the returned item
has an empty title and an empty url, refuting the claim as stated. -/
theorem c1_counterexample :
    recommend_anime cexEnvC1 [] id "" = some [⟨"", ""⟩] ∧
    ¬ (∀ it ∈ [(⟨"", ""⟩ : RecItem)], it.title ≠ "" ∧ it.url ≠ "") := by
  constructor
  · simp [recommend_anime, pipelineCandidates, step1Candidates,
          parse_user_request, underCeiling, fallback23, processCandidates,
          filterStage, dedupBy, dedupByAux, epFilter, gemFilter, pickTop10,
          cexEnvC1, trivialEnv, toItem, pyStripEmpty]
  · intro h
    have h2 := h ⟨"", ""⟩ (by simp)
    simp at h2

/-- C1 (amended): `recommend_anime` always returns at most 10 items, and its
items' titles and urls are copied from fetched records, so whenever every
record the fetchers can return has a non-empty title and a non-empty url,
every returned item has a non-empty title and a non-empty url. -/
theorem c1_amended_bound_and_fields :
    ∀ (env : FetchEnv) (dir : GenreDir)
      (sh : List AnimeRecord → List AnimeRecord) (query : String)
      (out : List RecItem),
      (∀ l, List.Perm (sh l) l) →
      recommend_anime env dir sh query = some out →
      out.length ≤ 10 ∧
      (envRecordsOk env → ∀ it ∈ out, it.title ≠ "" ∧ it.url ≠ "") := by
  intro env dir sh query out hsh hrec
  unfold recommend_anime at hrec
  rcases Option.map_eq_some'.mp hrec with ⟨c, hc, hout⟩
  constructor
  · rw [← hout, List.length_map]
    exact pickTop10_length_le _
  · intro hok it hit
    rw [← hout] at hit
    rcases List.mem_map.mp hit with ⟨a, ha, hia⟩
    have hac : a ∈ c := processCandidates_subset _ sh c hsh a ha
    have hgood := pipelineCandidates_all env dir query _ hok c hc a hac
    rw [← hia]
    exact hgood

/-- Witness for C1 (amended) on an environment whose only record is
well-formed. -/
theorem c1_witness :
    ([(⟨"t", "u"⟩ : RecItem)].length ≤ 10 ∧
      (envRecordsOk witEnvC1 →
        ∀ it ∈ [(⟨"t", "u"⟩ : RecItem)], it.title ≠ "" ∧ it.url ≠ "")) :=
  c1_amended_bound_and_fields witEnvC1 [] id "" [⟨"t", "u"⟩]
    (fun l => List.Perm.refl l)
    (by simp [recommend_anime, pipelineCandidates, step1Candidates,
              parse_user_request, underCeiling, fallback23, processCandidates,
              filterStage, dedupBy, dedupByAux, epFilter, gemFilter,
              pickTop10, witEnvC1, trivialEnv, toItem, pyStripEmpty])

/-! ## Filter characterizations -/

theorem epKeep_spec (n : Nat) (a : AnimeRecord) (h : epKeep n a = true) :
    ∃ e, a.episodes = some e ∧ e ≤ (n : Int) := by
  unfold epKeep at h
  cases he : a.episodes with
  | none => rw [he] at h; simp at h
  | some e =>
    rw [he] at h
    simp only [Bool.and_eq_true, decide_eq_true_eq] at h
    exact ⟨e, rfl, h.2⟩

theorem gemKeep_spec (a : AnimeRecord) (h : gemKeep a = true) :
    ∃ s, a.score = some s ∧ s < 7 := by
  unfold gemKeep at h
  cases hs : a.score with
  | none => rw [hs] at h; simp at h
  | some s =>
    rw [hs] at h
    simp only [Bool.and_eq_true, decide_eq_true_eq] at h
    exact ⟨s, rfl, h.2⟩

theorem mem_filterStage_epKeep (parsed : ParsedIntent) (l : List AnimeRecord)
    (a : AnimeRecord) (n : Nat) (hm : parsed.max_episodes = some n)
    (h : a ∈ filterStage parsed l) : epKeep n a = true := by
  unfold filterStage at h
  have h2 := (gemFilter_sublist parsed.rating_pref _).subset h
  rw [hm] at h2
  exact (List.mem_filter.mp h2).2

theorem mem_filterStage_gemKeep (parsed : ParsedIntent) (l : List AnimeRecord)
    (a : AnimeRecord) (hp : parsed.rating_pref = some "hidden gem")
    (h : a ∈ filterStage parsed l) : gemKeep a = true := by
  unfold filterStage at h
  rw [hp] at h
  unfold gemFilter at h
  rw [if_pos rfl] at h
  exact (List.mem_filter.mp h).2

/-- C4: with an inferred ceiling `max_episodes = n`, the episode filter keeps
only records with a known episode count at most `n` and drops every record
with an unknown episode count; consequently every item `recommend_anime`
returns comes from a record whose (known) episode count is at most `n`. -/
theorem c4_episode_ceiling :
    (∀ (n : Nat) (l : List AnimeRecord),
      (∀ a ∈ epFilter (some n) l, ∃ e, a.episodes = some e ∧ e ≤ (n : Int)) ∧
      (∀ a, a.episodes = none → a ∉ epFilter (some n) l)) ∧
    (∀ (env : FetchEnv) (dir : GenreDir)
        (sh : List AnimeRecord → List AnimeRecord) (query : String)
        (out : List RecItem) (n : Nat),
      (∀ l, List.Perm (sh l) l) →
      (parse_user_request dir (env.extract_keywords query)).max_episodes = some n →
      recommend_anime env dir sh query = some out →
      ∀ it ∈ out, ∃ a, toItem a = it ∧ ∃ e, a.episodes = some e ∧ e ≤ (n : Int)) := by
  constructor
  · intro n l
    constructor
    · intro a ha
      exact epKeep_spec n a (List.mem_filter.mp ha).2
    · intro a hnone hmem
      have hk := (List.mem_filter.mp hmem).2
      unfold epKeep at hk
      rw [hnone] at hk
      simp at hk
  · intro env dir sh query out n hsh hmax hrec
    unfold recommend_anime at hrec
    rcases Option.map_eq_some'.mp hrec with ⟨c, hc, hout⟩
    intro it hit
    rw [← hout] at hit
    rcases List.mem_map.mp hit with ⟨a, ha, hia⟩
    have hfs := processCandidates_mem_filterStage _ sh c hsh a ha
    exact ⟨a, hia, epKeep_spec n a (mem_filterStage_epKeep _ c a n hmax hfs)⟩

/-- Witness for C4: query "under 5" with a 3-episode search result. -/
theorem c4_witness :
    ∀ it ∈ [(⟨"A", "u1"⟩ : RecItem)],
      ∃ a, toItem a = it ∧ ∃ e, a.episodes = some e ∧ e ≤ ((5 : Nat) : Int) :=
  c4_episode_ceiling.2 witEnvC4 [] id "under 5" [⟨"A", "u1"⟩] 5
    (fun l => List.Perm.refl l)
    (by decide)
    (by
      have hek : epKeep 5 ⟨"A", "u1", some 3, none⟩ = true := by decide
      simp [recommend_anime, pipelineCandidates, step1Candidates,
            parse_user_request, underCeiling, fallback23, processCandidates,
            filterStage, dedupBy, dedupByAux, epFilter, gemFilter, pickTop10,
            witEnvC4, trivialEnv, toItem, pyStripEmpty, pyIsDigit,
            decimalValue, hek])

/-- C5: with the hidden-gem preference inferred, the hidden-gem filter keeps
only records with a known score below 7 and drops every record with an
unknown score; consequently every item `recommend_anime` returns comes from
a record whose score is known and below 7. -/
theorem c5_hidden_gem :
    (∀ (l : List AnimeRecord),
      (∀ a ∈ gemFilter (some "hidden gem") l, ∃ s, a.score = some s ∧ s < 7) ∧
      (∀ a, a.score = none → a ∉ gemFilter (some "hidden gem") l)) ∧
    (∀ (env : FetchEnv) (dir : GenreDir)
        (sh : List AnimeRecord → List AnimeRecord) (query : String)
        (out : List RecItem),
      (∀ l, List.Perm (sh l) l) →
      (parse_user_request dir (env.extract_keywords query)).rating_pref =
        some "hidden gem" →
      recommend_anime env dir sh query = some out →
      ∀ it ∈ out, ∃ a, toItem a = it ∧ ∃ s, a.score = some s ∧ s < 7) := by
  constructor
  · intro l
    constructor
    · intro a ha
      unfold gemFilter at ha
      rw [if_pos rfl] at ha
      exact gemKeep_spec a (List.mem_filter.mp ha).2
    · intro a hnone hmem
      unfold gemFilter at hmem
      rw [if_pos rfl] at hmem
      have hk := (List.mem_filter.mp hmem).2
      unfold gemKeep at hk
      rw [hnone] at hk
      simp at hk
  · intro env dir sh query out hsh hpref hrec
    unfold recommend_anime at hrec
    rcases Option.map_eq_some'.mp hrec with ⟨c, hc, hout⟩
    intro it hit
    rw [← hout] at hit
    rcases List.mem_map.mp hit with ⟨a, ha, hia⟩
    have hfs := processCandidates_mem_filterStage _ sh c hsh a ha
    exact ⟨a, hia, gemKeep_spec a (mem_filterStage_gemKeep _ c a hpref hfs)⟩

/-- Witness for C5: query "hidden gem" with one score-5 search result. -/
theorem c5_witness :
    ∀ it ∈ [(⟨"A", "u1"⟩ : RecItem)],
      ∃ a, toItem a = it ∧ ∃ s, a.score = some s ∧ s < 7 :=
  c5_hidden_gem.2 witEnvC5 [] id "hidden gem" [⟨"A", "u1"⟩]
    (fun l => List.Perm.refl l)
    (by decide)
    (by
      have hgk : gemKeep ⟨"A", "u1", some 3, some 5⟩ = true := by decide
      simp [recommend_anime, pipelineCandidates, step1Candidates,
            parse_user_request, underCeiling, fallback23, processCandidates,
            filterStage, dedupBy, dedupByAux, epFilter, gemFilter, pickTop10,
            witEnvC5, trivialEnv, toItem, pyStripEmpty, hgk])

/-! ## The fallback chain -/

theorem gatherGenres_eq (env : FetchEnv) (dir : GenreDir) :
    ∀ (gs : List String) (acc : List AnimeRecord),
      gatherGenres env dir acc gs =
        (lookupGenreIds dir gs).map
          (fun gids =>
            acc ++ (gids.map (fun gid => env.fetch_by_genre gid 2)).flatten) := by
  intro gs
  induction gs with
  | nil => intro acc; simp [gatherGenres, lookupGenreIds]
  | cons g gs ih =>
    intro acc
    simp only [gatherGenres, lookupGenreIds]
    cases hgl : dir.lookup g with
    | none => cases hr : lookupGenreIds dir gs <;> simp
    | some gid =>
      cases hr : lookupGenreIds dir gs with
      | none => simp [ih, hr]
      | some r => simp [ih, hr, List.append_assoc]

theorem step1_eq_chainStep1 (env : FetchEnv) (dir : GenreDir) (query : String)
    (parsed : ParsedIntent) :
    step1Candidates env dir query parsed =
      chainStep1 env dir query parsed (!pyStripEmpty query) := by
  unfold step1Candidates chainStep1
  by_cases hg : parsed.genres.isEmpty
  · have hg2 : ¬ parsed.genres ≠ [] := by
      simpa [List.isEmpty_iff] using hg
    rw [if_pos hg, if_neg hg2]
    by_cases ht : pyStripEmpty query
    · rw [if_pos ht]; simp [ht]
    · rw [if_neg ht]; simp [ht]
  · have hg2 : parsed.genres ≠ [] := by
      simpa [List.isEmpty_iff] using hg
    rw [if_neg hg, if_pos hg2, gatherGenres_eq]
    simp

theorem fallback23_eq_chainFallback (env : FetchEnv) (query : String)
    (c0 : List AnimeRecord) :
    fallback23 env query c0 = chainFallback env query (!pyStripEmpty query) c0 := by
  simp only [fallback23, chainFallback]
  by_cases h0 : c0 = []
  · subst h0
    by_cases hq : pyStripEmpty query <;> simp [hq]
  · have h0' : c0.isEmpty = false := by
      simpa [List.isEmpty_iff] using h0
    simp [h0, h0']

/-- C3 (amended): `recommend_anime` selects its candidates by the strict
fallback chain genre-fetches / free-text search / secondary catalog / top
listing, where "the query is non-empty" means non-blank, i.e. `query.strip()`
is non-empty (a whitespace-only query counts as empty, as the source's
`query.strip()` tests do). -/
theorem c3_amended_fallback_chain :
    ∀ (env : FetchEnv) (dir : GenreDir) (query : String)
      (sh : List AnimeRecord → List AnimeRecord),
      pipelineCandidates env dir query = specCandidatesTrim env dir query ∧
      recommend_anime env dir sh query =
        (specCandidatesTrim env dir query).map
          (fun c =>
            (processCandidates
              (parse_user_request dir (env.extract_keywords query)) sh c).map
              toItem) := by
  intro env dir query sh
  have h1 : pipelineCandidates env dir query = specCandidatesTrim env dir query := by
    unfold pipelineCandidates specCandidatesTrim chainCandidates
    rw [step1_eq_chainStep1]
    congr 1
    funext c0
    exact fallback23_eq_chainFallback env query c0
  refine ⟨h1, ?_⟩
  unfold recommend_anime
  rw [h1]

/-- Counterexample for C3: on the whitespace-only query `" "` (non-empty as
a string, blank after stripping) with no extracted tokens, the claim's
chain fetches the free-text search results while the code skips the search
(`query.strip()` is falsy) and serves the top listing instead. -/
theorem c3_counterexample :
    pipelineCandidates cexEnvC3 [] " " ≠ specCandidatesLiteral cexEnvC3 [] " " := by
  decide

/-! ## Ranking: shuffle, stable descending sort, truncation -/

/-- C6: both `recommend_anime` and `get_default_recs` rank by shuffling the
final candidate list (`sh`, modelling a seeded `random.shuffle`) and then
stable-sorting it in descending order of score with a missing score treated
as 0, truncated to the first 10: the produced prefix is pairwise descending
by score-or-0 and has length at most 10. -/
theorem c6_shuffle_sort_truncate :
    ∀ (env : FetchEnv) (dir : GenreDir)
      (sh : List AnimeRecord → List AnimeRecord) (query : String),
      (∀ c, pipelineCandidates env dir query = some c →
        recommend_anime env dir sh query =
          some ((pickTop10 (sh (filterStage
            (parse_user_request dir (env.extract_keywords query)) c))).map toItem) ∧
        (pickTop10 (sh (filterStage
          (parse_user_request dir (env.extract_keywords query)) c))).Pairwise
            (fun a b => scoreKey b ≤ scoreKey a) ∧
        (pickTop10 (sh (filterStage
          (parse_user_request dir (env.extract_keywords query)) c))).length ≤ 10) ∧
      (get_default_recs env sh =
          (pickTop10 (sh (env.fetch_top_anime 2))).map toItem ∧
        (pickTop10 (sh (env.fetch_top_anime 2))).Pairwise
          (fun a b => scoreKey b ≤ scoreKey a) ∧
        (pickTop10 (sh (env.fetch_top_anime 2))).length ≤ 10) := by
  intro env dir sh query
  constructor
  · intro c hc
    refine ⟨?_, pickTop10_sorted _, pickTop10_length_le _⟩
    unfold recommend_anime
    rw [hc]
    rfl
  · exact ⟨rfl, pickTop10_sorted _, pickTop10_length_le _⟩

/-- Witness for C6 on the empty environment. -/
theorem c6_witness :
    recommend_anime trivialEnv [] id "" =
      some ((pickTop10 (id (filterStage
        (parse_user_request [] (trivialEnv.extract_keywords "")) []))).map toItem) ∧
    (pickTop10 (id (filterStage
      (parse_user_request [] (trivialEnv.extract_keywords "")) []))).Pairwise
        (fun a b => scoreKey b ≤ scoreKey a) ∧
    (pickTop10 (id (filterStage
      (parse_user_request [] (trivialEnv.extract_keywords "")) []))).length ≤ 10 :=
  (c6_shuffle_sort_truncate trivialEnv [] id "").1 [] (by decide)

/-! ## The "under N" scan -/

theorem underCeiling_some_of (tokens : List String) (n : Nat)
    (h : underCeiling tokens = some n) :
    ∃ i t2, tokens[i]? = some "under" ∧ tokens[i + 1]? = some t2 ∧
      pyIsDigit t2 = true ∧ n = decimalValue t2 := by
  induction tokens with
  | nil => simp [underCeiling] at h
  | cons t rest ih =>
    simp only [underCeiling] at h
    by_cases ht : t = "under"
    · rw [if_pos ht] at h
      cases rest with
      | nil => simp at h
      | cons t2 rest2 =>
        by_cases hd : pyIsDigit t2
        · simp only [hd, if_true] at h
          refine ⟨0, t2, ?_, by simp, hd, (Option.some.inj h).symm⟩
          rw [List.getElem?_cons_zero, ht]
        · simp [hd] at h
    · rw [if_neg ht] at h
      rcases ih h with ⟨i, t2, h1, h2, h3, h4⟩
      exact ⟨i + 1, t2, by simpa using h1, by simpa using h2, h3, h4⟩

theorem underCeiling_eq_of_mem (tokens : List String) (hnd : tokens.Nodup)
    (i : Nat) (t2 : String) (h1 : tokens[i]? = some "under")
    (h2 : tokens[i + 1]? = some t2) (h3 : pyIsDigit t2 = true) :
    underCeiling tokens = some (decimalValue t2) := by
  induction tokens generalizing i with
  | nil => simp at h1
  | cons t rest ih =>
    rcases List.nodup_cons.mp hnd with ⟨htm, hrest⟩
    cases i with
    | zero =>
      rw [List.getElem?_cons_zero] at h1
      have ht := Option.some.inj h1
      rw [List.getElem?_cons_succ] at h2
      cases rest with
      | nil => simp at h2
      | cons r rs =>
        rw [List.getElem?_cons_zero] at h2
        have hr := Option.some.inj h2
        subst hr
        simp [underCeiling, ht, h3]
    | succ k =>
      rw [List.getElem?_cons_succ] at h1 h2
      have hne : t ≠ "under" := by
        intro he
        exact htm (he ▸ List.getElem?_mem h1)
      simp only [underCeiling, if_neg hne]
      exact ih hrest k h1 h2

/-- C7: `parse_user_request` sets `max_episodes = int(t)` exactly when the
extracted token collection (duplicate-free, being built from a Python set)
holds the literal token "under" immediately followed, in the order the
collection yields, by a digit-only token `t`; otherwise `max_episodes` is
absent. -/
theorem c7_under_scan :
    ∀ (dir : GenreDir) (tokens : List String), tokens.Nodup →
      ∀ (n : Nat),
        ((parse_user_request dir tokens).max_episodes = some n ↔
          ∃ i t2, tokens[i]? = some "under" ∧ tokens[i + 1]? = some t2 ∧
            pyIsDigit t2 = true ∧ n = decimalValue t2) := by
  intro dir tokens hnd n
  constructor
  · intro h
    exact underCeiling_some_of tokens n h
  · rintro ⟨i, t2, h1, h2, h3, h4⟩
    subst h4
    exact underCeiling_eq_of_mem tokens hnd i t2 h1 h2 h3

/-- Witness for C7 on the token list of "under 12". -/
theorem c7_witness :
    ((parse_user_request [] ["under", "12"]).max_episodes = some 12 ↔
      ∃ i t2, (["under", "12"] : List String)[i]? = some "under" ∧
        (["under", "12"] : List String)[i + 1]? = some t2 ∧
        pyIsDigit t2 = true ∧ 12 = decimalValue t2) :=
  c7_under_scan [] ["under", "12"] (by decide) 12
